import Mathlib

/-!
# Verification of the layered configuration resolver of `config_playground`

This file embeds `src/main.rs` of the `config_playground` repository in
Lean 4.  The code of the program itself (`get_configuration`, `OptionalSettings`,
`Settings`, `SomeStructSettings`, `main`) is translated directly; the
external crates it calls (`config`, `serde`, `serde_aux`, `serde_json`,
`secrecy`) are embedded by their documented behaviour on the value shapes
this program can produce (booleans, integers, strings and nested tables;
the sources of this program never produce floats, arrays or null values).
-/

namespace ConfigPlayground

mutual

/-- A configuration value tree, embedding `config::Value` restricted to the
kinds the sources of the program produce: booleans, 64-bit integers, strings and
tables.  Tables are insertion-ordered association lists, mirroring the
`Map<String, Value>` (an ordered map) used by the `config` crate. -/
inductive Value where
  | vBool : Bool → Value
  | vInt : Int → Value
  | vStr : String → Value
  | vTable : Table → Value

/-- A table of key/value bindings, in insertion order. -/
inductive Table where
  | nil : Table
  | cons : String → Value → Table → Table

end

/-- Lookup of a key in a table (maps in the `config` crate have unique keys;
lookup returns the first binding). -/
def Table.lookup : Table → String → Option Value
  | .nil, _ => none
  | .cons k v rest, key => if k = key then some v else rest.lookup key

/-- Key-membership test, as `contains_key` of the map type in the `config` crate. -/
def Table.hasKey (t : Table) (key : String) : Bool :=
  (t.lookup key).isSome

/-- Appending two tables (new keys of a higher-priority source are appended
after the existing keys, as `insert` on an ordered map does for fresh keys). -/
def Table.append : Table → Table → Table
  | .nil, t2 => t2
  | .cons k v rest, t2 => .cons k v (rest.append t2)

/-- Entries of the first table whose key does not occur in the second. -/
def Table.filterNotIn : Table → Table → Table
  | .nil, _ => .nil
  | .cons k v rest, t1 =>
      if t1.hasKey k then rest.filterNotIn t1 else .cons k v (rest.filterNotIn t1)

mutual

/-- Deep merge of a higher-priority value over a lower-priority value,
embedding the path-`set` semantics of the `config` crate used by
`ConfigBuilder::build`: two tables merge recursively key by key; in every
other combination the higher-priority (second) value replaces the
lower-priority (first) one. -/
def Value.merge : Value → Value → Value
  | .vTable t1, .vTable t2 => .vTable ((t1.mergeUpd t2).append (t2.filterNotIn t1))
  | _, v => v

/-- Per-key update of the lower-priority table: every existing binding is
kept in place, its value deep-merged with the higher-priority binding of the
same key when one exists. -/
def Table.mergeUpd : Table → Table → Table
  | .nil, _ => .nil
  | .cons k v rest, t2 =>
      .cons k (match t2.lookup k with
               | some w => v.merge w
               | none => v) (rest.mergeUpd t2)

end

/-- Merge of a higher-priority table (second) over a lower-priority one. -/
def Table.mergeTables (t1 t2 : Table) : Table :=
  (t1.mergeUpd t2).append (t2.filterNotIn t1)

/-- Setting one top-level key, as `collect_to` does entry by entry:
equivalent to merging a one-entry higher-priority table. -/
def Table.setKey (cache : Table) (k : String) (v : Value) : Table :=
  cache.mergeTables (.cons k v .nil)

/-- Wrapping a value under a (possibly nested) key path. -/
def nestPath : List String → Value → Value
  | [], v => v
  | k :: rest, v => .vTable (.cons k (nestPath rest v) .nil)

/-- Setting a value at a nested key path, as `Expression::set` does for a
dotted key collected from the environment source. -/
def Table.setPath (cache : Table) : List String → Value → Table
  | [], _ => cache
  | k :: rest, v => cache.setKey k (nestPath rest v)

/-- Adding the whole collected table of a source into the cache, entry by entry
in order, as `Source::collect_to` does inside `ConfigBuilder::build`. -/
def Table.addSource : Table → Table → Table
  | cache, .nil => cache
  | cache, .cons k v rest => (cache.setKey k v).addSource rest

/-! ## The environment source

`config::Environment::with_prefix(APP_NAME).separator("__")`, where
`APP_NAME` is the shouty-snake conversion of the cargo package name
`config_playground`.  Since no explicit prefix separator is set, the
`config` crate uses the key separator `"__"` also as the prefix separator:
a variable participates exactly when its lowercased name starts with
`"config_playground__"`; the remainder has every `"__"` replaced by `"."`
and is then split on `"."` into a nested key path. -/

/-- Lowercasing of a character, as the Rust ASCII lowercasing of environment
variable names behaves on the names this program uses. -/
def lowerChar (c : Char) : Char := c.toLower

/-- The lowercased prefix pattern `prefix + separator` the `config` crate
matches environment-variable names against. -/
def envPrefixPattern : List Char := "config_playground__".data

/-- Stripping a leading pattern from a character list; `none` when the
pattern is not a prefix of the list. -/
def stripPat : List Char → List Char → Option (List Char)
  | [], rest => some rest
  | _, [] => none
  | p :: ps, c :: cs => if c = p then stripPat ps cs else none

/-- Replacement of every occurrence of the separator `"__"` by `"."`,
left to right and non-overlapping, as `str::replace` in Rust. -/
def replaceSep : List Char → List Char
  | '_' :: '_' :: rest => '.' :: replaceSep rest
  | c :: rest => c :: replaceSep rest
  | [] => []

/-- Splitting a key on `"."` into path components, as the dotted-path handling of the
`config` crate does for the dotted keys the environment source
produces. -/
def splitDots (acc : List Char) : List Char → List String
  | [] => [String.mk acc.reverse]
  | '.' :: rest => String.mk acc.reverse :: splitDots [] rest
  | c :: rest => splitDots (c :: acc) rest

/-- The nested key path an environment variable name contributes, or `none`
when the name does not carry the application prefix
(`Environment::collect`: lowercase the name, strip the prefix pattern,
replace the separator by dots, parse as a dotted path). -/
def envKeyPath (name : String) : Option (List String) :=
  match stripPat envPrefixPattern (name.data.map lowerChar) with
  | none => none
  | some rest => some (splitDots [] (replaceSep rest))

/-- Collecting the environment source into the cache: each variable, in
order, is skipped when the prefix does not match, and otherwise sets its
(string) value at the nested key path. -/
def Table.collectEnv : Table → List (String × String) → Table
  | cache, [] => cache
  | cache, (n, v) :: rest =>
      (match envKeyPath n with
       | some p => cache.setPath p (.vStr v)
       | none => cache).collectEnv rest

/-! ## The caller-override source

The `OptionalSettings` struct (the clap-parsed optional CLI arguments) is
serialized to JSON with `#[skip_serializing_none]` and added as a JSON
file source: an unset field is omitted entirely, so the source contributes
a key exactly when the field is `Some`. -/

/-- `OptionalSettings` of `src/main.rs`: the single optional
caller-supplied override. -/
structure OptionalSettings where
  somestring : Option String
deriving DecidableEq

/-- The table the override source contributes: the parse of
`serde_json::to_string(&optional_settings)` under `skip_serializing_none`
(`"\x7b\x7d"` when unset, a one-key document when set). -/
def overrideTable (o : OptionalSettings) : Table :=
  match o.somestring with
  | none => .nil
  | some s => .cons "somestring" (.vStr s) .nil

/-! ## Building the merged tree

`ConfigBuilder::build` starts from an empty cache and lets each source, in
the order they were added (baseline, runtime file, environment, caller
overrides), set its collected entries into the cache.  `config::File::from`
on a path builds a source with `required = true` (the code never calls
`.required(false)`), so a missing runtime file aborts the build with an
error. -/

/-- The merged tree of all four sources, in priority order (the runtime
parsed table of the runtime file given explicitly). -/
def mergedTree (base : Table) (rt : Table) (env : List (String × String))
    (o : OptionalSettings) : Table :=
  ((((Table.nil.addSource base).addSource rt).collectEnv env).addSource (overrideTable o))

/-- `Config::builder()...build()` of `get_configuration`: an absent runtime
file is an error (the file source is required); otherwise the result is the
merged tree of the four sources. -/
def buildConfig (base : Table) (rt : Option Table) (env : List (String × String))
    (o : OptionalSettings) : Except String Table :=
  match rt with
  | none => .error "configuration file not found"
  | some t => .ok (mergedTree base t env o)

/-! ## The typed settings and deserialization

`Settings` derives `serde::Deserialize`; the `config` crate deserializes
its merged tree into it with the value coercions of the crate (`into_bool`,
`into_string`), `deserialize_number_from_string` of `serde_aux` on
`somestruct.someint`, and `secrecy::Secret<String>` on `somesecret`. -/

/-- `secrecy::Secret<String>`: a wrapper whose `Debug` output redacts the
value; only `expose_secret` reveals it. -/
structure Secret where
  secretValue : String
deriving DecidableEq

/-- `ExposeSecret::expose_secret`: the explicit, intentional accessor to
the wrapped value. -/
def Secret.exposeSecret (s : Secret) : String := s.secretValue

/-- `SomeStructSettings` of `src/main.rs` (`someint: u64`, deserialized
with `deserialize_number_from_string`). -/
structure SomeStructSettings where
  someint : Nat
deriving DecidableEq

/-- `Settings` of `src/main.rs`. -/
structure Settings where
  somebool : Bool
  somestring : String
  somesecret : Secret
  somestruct : SomeStructSettings
  someoptionalstring : Option String
deriving DecidableEq

/-- The `into_bool` coercion of the `config` crate backing `deserialize_bool`:
booleans as themselves, integers by a zero test, the usual truthy/falsy
strings, and an error on a table. -/
def Value.intoBool : Value → Except String Bool
  | .vBool b => .ok b
  | .vInt i => .ok (i != 0)
  | .vStr s =>
      let l := String.mk (s.data.map lowerChar)
      if l = "1" ∨ l = "true" ∨ l = "on" ∨ l = "yes" then .ok true
      else if l = "0" ∨ l = "false" ∨ l = "off" ∨ l = "no" then .ok false
      else .error "invalid type: string, expected a boolean"
  | .vTable _ => .error "invalid type: map, expected a boolean"

/-- The `into_string` coercion of the `config` crate backing
`deserialize_string`: strings as themselves, booleans and integers by
their display form, and an error on a table. -/
def Value.intoString : Value → Except String String
  | .vStr s => .ok s
  | .vBool b => .ok (if b then "true" else "false")
  | .vInt i => .ok (toString i)
  | .vTable _ => .error "invalid type: map, expected a string"

/-- The Rust `u64::from_str` parse: an optional leading plus sign, then at least
one decimal digit, and the value must fit in 64 bits. -/
def parseU64 (s : String) : Except String Nat :=
  let cs := match s.data with
            | '+' :: rest => rest
            | cs => cs
  if cs = [] then .error "cannot parse integer from empty string"
  else if cs.all Char.isDigit then
    let n := cs.foldl (fun acc c => acc * 10 + (c.toNat - 48)) 0
    if n < 18446744073709551616 then .ok n
    else .error "number too large to fit in target type"
  else .error "invalid digit found in string"

/-- `serde_aux::field_attributes::deserialize_number_from_string` at type
`u64`: the untagged `StringOrInt` either takes a string and parses it with
`u64::from_str`, or takes the number itself (a non-negative integer); any
other value matches neither variant. -/
def coerceIntField : Value → Except String Nat
  | .vStr s => parseU64 s
  | .vInt i => if 0 ≤ i then .ok i.toNat
               else .error "invalid value: negative integer for u64"
  | _ => .error "data did not match any variant of untagged enum"

/-- The `somebool` field of a merged tree: required, coerced by
`into_bool`; missing is a deserialization error. -/
def fieldBool (t : Table) : Except String Bool :=
  match t.lookup "somebool" with
  | none => .error "missing field somebool"
  | some v => v.intoBool

/-- The `somestring` field: required, coerced by `into_string`. -/
def fieldString (t : Table) : Except String String :=
  match t.lookup "somestring" with
  | none => .error "missing field somestring"
  | some v => v.intoString

/-- The `somesecret` field: required; `Secret<String>` deserializes the
inner string and wraps it. -/
def fieldSecret (t : Table) : Except String Secret :=
  match t.lookup "somesecret" with
  | none => .error "missing field somesecret"
  | some v =>
      match v.intoString with
      | .error e => .error e
      | .ok s => .ok ⟨s⟩

/-- Deserialization of `SomeStructSettings` from a value: the value must
be a table, its required `someint` entry coerced by
`deserialize_number_from_string`. -/
def deserializeSomeStruct : Value → Except String SomeStructSettings
  | .vTable t =>
      (match t.lookup "someint" with
       | none => .error "missing field someint"
       | some v =>
           match coerceIntField v with
           | .error e => .error e
           | .ok n => .ok ⟨n⟩)
  | _ => .error "invalid type: expected a map for somestruct"

/-- The `somestruct` field: required. -/
def fieldStruct (t : Table) : Except String SomeStructSettings :=
  match t.lookup "somestruct" with
  | none => .error "missing field somestruct"
  | some v => deserializeSomeStruct v

/-- The `someoptionalstring` field: an `Option<String>`, `None` when the
key is absent (the serde missing-field handling for option fields), `Some`
of the coerced string otherwise. -/
def fieldOptional (t : Table) : Except String (Option String) :=
  match t.lookup "someoptionalstring" with
  | none => .ok none
  | some v =>
      match v.intoString with
      | .error e => .error e
      | .ok s => .ok (some s)

/-- `try_deserialize::<Settings>()` on a merged tree: every field
deserializes, or the whole deserialization fails. -/
def deserializeSettings (t : Table) : Except String Settings :=
  match fieldBool t with
  | .error e => .error e
  | .ok b =>
    match fieldString t with
    | .error e => .error e
    | .ok s =>
      match fieldSecret t with
      | .error e => .error e
      | .ok sec =>
        match fieldStruct t with
        | .error e => .error e
        | .ok st =>
          match fieldOptional t with
          | .error e => .error e
          | .ok o => .ok ⟨b, s, sec, st, o⟩

/-- `get_configuration` of `src/main.rs`, over the parsed baseline table,
the runtime file (absent or parsed), the process environment and the
caller overrides: build the layered configuration, then deserialize it
into `Settings`. -/
def get_configuration (base : Table) (rt : Option Table)
    (env : List (String × String)) (o : OptionalSettings) :
    Except String Settings :=
  match buildConfig base rt env o with
  | .error e => .error e
  | .ok t => deserializeSettings t

/-! ## The display output of the program

`main` prints the settings once with the derived `Debug` implementation
(in which the `Debug` of `Secret` redacts the value) and once prints the raw
secret through the explicit `expose_secret` accessor. -/

/-- The derived `Debug` output of `SomeStructSettings`. -/
def SomeStructSettings.debugFmt (s : SomeStructSettings) : String :=
  "SomeStructSettings \x7b someint: " ++ toString s.someint ++ " \x7d"

/-- The `Debug` output of `secrecy::Secret<String>`: a fixed redaction
placeholder, independent of the wrapped value. -/
def Secret.debugFmt (_ : Secret) : String :=
  "Secret([REDACTED alloc::string::String])"

/-- The `Debug` output of an optional string. -/
def debugOption : Option String → String
  | none => "None"
  | some s => "Some(\"" ++ s ++ "\")"

/-- The derived `Debug` output of `Settings`, as printed by
`println!("Settings: \x7b:?\x7d", settings)`. -/
def Settings.debugFmt (s : Settings) : String :=
  "Settings \x7b somebool: " ++ (if s.somebool then "true" else "false") ++
  ", somestring: \"" ++ s.somestring ++
  "\", somesecret: " ++ s.somesecret.debugFmt ++
  ", somestruct: " ++ s.somestruct.debugFmt ++
  ", someoptionalstring: " ++ debugOption s.someoptionalstring ++ " \x7d"

/-- The two lines `main` prints on success, in order: the redacted debug
display of the settings, then the raw secret through `expose_secret`. -/
def mainOutput (s : Settings) : List String :=
  ["Settings: " ++ s.debugFmt, "Secret: " ++ s.somesecret.exposeSecret]

/-! ## Concrete scenario inputs

The baseline table of the scenario in the specification (the baseline must
also define `somesecret`, since it is a required field and the scenario
expects a successful resolution). -/

/-- The scenario baseline: `somebool=false`, `somestring="base"`,
`somesecret="base-secret"`, `somestruct.someint=1`, no
`someoptionalstring`. -/
def baseC1 : Table :=
  .cons "somebool" (.vBool false)
    (.cons "somestring" (.vStr "base")
      (.cons "somesecret" (.vStr "base-secret")
        (.cons "somestruct" (.vTable (.cons "someint" (.vInt 1) .nil)) .nil)))

/-- The scenario runtime file: it sets only `somestring="runtime"`. -/
def rtC1 : Table := .cons "somestring" (.vStr "runtime") .nil

/-- The scenario environment: `CONFIG_PLAYGROUND__SOMESTRUCT__SOMEINT=42`. -/
def envC1 : List (String × String) :=
  [("CONFIG_PLAYGROUND__SOMESTRUCT__SOMEINT", "42")]

/-- The three lower-priority layers alone, that is `get_configuration` with
the caller-override source left out: baseline, runtime file and environment
are merged and the result deserialized. -/
def resolveNoOverride (base : Table) (rt : Option Table)
    (env : List (String × String)) : Except String Settings :=
  match rt with
  | none => .error "configuration file not found"
  | some t => deserializeSettings (((Table.nil.addSource base).addSource t).collectEnv env)

/-- A baseline that provides no `somebool` key (used to exhibit a missing
required field). -/
def baseNoBool : Table := .cons "somestring" (.vStr "x") .nil

/-! ## Lookup lemmas about the merge -/

/-- Merging a string value over any value yields the string: a scalar from
a higher-priority source always replaces the lower-priority value. -/
theorem Value.merge_vStr : ∀ (w : Value) (s : String), w.merge (.vStr s) = .vStr s
  | .vBool _, _ => rfl
  | .vInt _, _ => rfl
  | .vStr _, _ => rfl
  | .vTable _, _ => rfl

/-- Lookup in an appended table: the first table is consulted first. -/
theorem Table.lookup_append : ∀ (t1 t2 : Table) (key : String),
    (t1.append t2).lookup key =
      (match t1.lookup key with
       | some v => some v
       | none => t2.lookup key)
  | .nil, _, _ => rfl
  | .cons k v rest, t2, key => by
      by_cases h : k = key
      · simp [Table.append, Table.lookup, h]
      · simp [Table.append, Table.lookup, h, Table.lookup_append rest t2 key]

/-- Lookup in a per-key updated table: an existing binding is found with
its value merged against the higher-priority binding of the same key. -/
theorem Table.lookup_mergeUpd : ∀ (t1 t2 : Table) (key : String),
    (t1.mergeUpd t2).lookup key =
      (match t1.lookup key with
       | some v => some (match t2.lookup key with
                         | some w => v.merge w
                         | none => v)
       | none => none)
  | .nil, _, _ => rfl
  | .cons k v rest, t2, key => by
      by_cases h : k = key
      · subst h; simp [Table.mergeUpd, Table.lookup]
      · simp [Table.mergeUpd, Table.lookup, h, Table.lookup_mergeUpd rest t2 key]

/-- Lookup among the entries whose key is fresh with respect to the
lower-priority table. -/
theorem Table.lookup_filterNotIn : ∀ (t2 t1 : Table) (key : String),
    (t2.filterNotIn t1).lookup key = if t1.hasKey key then none else t2.lookup key
  | .nil, t1, key => by
      cases h : t1.hasKey key <;> simp [Table.filterNotIn, Table.lookup, h]
  | .cons k v rest, t1, key => by
      by_cases hk : k = key
      · subst hk
        cases h : t1.hasKey k <;>
          simp [Table.filterNotIn, h, Table.lookup, Table.lookup_filterNotIn rest t1 k]
      · cases h : t1.hasKey k <;>
          simp [Table.filterNotIn, h, Table.lookup, hk, Table.lookup_filterNotIn rest t1 key]

/-- Lookup in the merge of two tables: a key present in both resolves to
the deep merge of the two values, a key present in one to that value. -/
theorem Table.lookup_mergeTables (t1 t2 : Table) (key : String) :
    (t1.mergeTables t2).lookup key =
      (match t1.lookup key, t2.lookup key with
       | some v, some w => some (v.merge w)
       | some v, none => some v
       | none, r => r) := by
  unfold Table.mergeTables
  rw [Table.lookup_append, Table.lookup_mergeUpd, Table.lookup_filterNotIn]
  unfold Table.hasKey
  cases h1 : t1.lookup key <;> cases h2 : t2.lookup key <;> simp [h1, h2]

/-- Lookup after setting one key: the set key resolves to the merged
value, every other key is untouched. -/
theorem Table.lookup_setKey (t : Table) (k : String) (v : Value) (key : String) :
    (t.setKey k v).lookup key =
      if key = k then
        some (match t.lookup k with
              | some w => w.merge v
              | none => v)
      else t.lookup key := by
  unfold Table.setKey
  rw [Table.lookup_mergeTables]
  by_cases h : key = k
  · subst h
    cases ht : t.lookup key <;> simp [Table.lookup, ht]
  · have hne : ¬k = key := fun hh => h hh.symm
    have h2 : (Table.cons k v .nil).lookup key = none := by
      simp [Table.lookup, hne]
    rw [h2]
    cases ht : t.lookup key <;> simp [ht, h]

/-- The merged tree with an unset override equals the merge of the three
lower-priority sources alone. -/
theorem mergedTree_none (base rtt : Table) (env : List (String × String)) :
    mergedTree base rtt env ⟨none⟩ =
      ((Table.nil.addSource base).addSource rtt).collectEnv env := rfl

/-- The merged tree with a set override is the lower-priority merge with
the single key `somestring` set on top. -/
theorem mergedTree_some (base rtt : Table) (env : List (String × String)) (s : String) :
    mergedTree base rtt env ⟨some s⟩ =
      (((Table.nil.addSource base).addSource rtt).collectEnv env).setKey
        "somestring" (.vStr s) := rfl

/-- At every key other than `somestring`, the merged tree does not depend
on the caller override. -/
theorem mergedTree_lookup_ne (base rtt : Table) (env : List (String × String))
    (o : OptionalSettings) (key : String) (hk : key ≠ "somestring") :
    (mergedTree base rtt env o).lookup key =
      (mergedTree base rtt env ⟨none⟩).lookup key := by
  obtain ⟨os⟩ := o
  cases os with
  | none => rfl
  | some s => rw [mergedTree_some, Table.lookup_setKey, if_neg hk, mergedTree_none]

/-- In the merged tree with a set override, `somestring` resolves to the
override value. -/
theorem mergedTree_lookup_somestring (base rtt : Table) (env : List (String × String))
    (s : String) :
    (mergedTree base rtt env ⟨some s⟩).lookup "somestring" = some (.vStr s) := by
  rw [mergedTree_some, Table.lookup_setKey]
  cases hL : (((Table.nil.addSource base).addSource rtt).collectEnv env).lookup "somestring" <;>
    simp [hL, Value.merge_vStr]

/-! ## Inversion lemmas about deserialization -/

/-- A successful deserialization determines every field deserializer. -/
theorem deserialize_ok_fields {t : Table} {st : Settings}
    (h : deserializeSettings t = .ok st) :
    fieldBool t = .ok st.somebool ∧ fieldString t = .ok st.somestring ∧
    fieldSecret t = .ok st.somesecret ∧ fieldStruct t = .ok st.somestruct ∧
    fieldOptional t = .ok st.someoptionalstring := by
  unfold deserializeSettings at h
  rcases hb : fieldBool t with e | b <;> rw [hb] at h
  · simp at h
  rcases hs : fieldString t with e | s <;> rw [hs] at h
  · simp at h
  rcases hc : fieldSecret t with e | sec <;> rw [hc] at h
  · simp at h
  rcases hst : fieldStruct t with e | stc <;> rw [hst] at h
  · simp at h
  rcases ho : fieldOptional t with e | oo <;> rw [ho] at h
  · simp at h
  simp only [Except.ok.injEq] at h
  subst h
  exact ⟨rfl, rfl, rfl, rfl, rfl⟩

/-- Successful field deserializers assemble into a successful settings
deserialization. -/
theorem deserialize_of_fields {t : Table} {b : Bool} {s : String} {sec : Secret}
    {stc : SomeStructSettings} {oo : Option String}
    (hb : fieldBool t = .ok b) (hs : fieldString t = .ok s)
    (hc : fieldSecret t = .ok sec) (hst : fieldStruct t = .ok stc)
    (ho : fieldOptional t = .ok oo) :
    deserializeSettings t = .ok ⟨b, s, sec, stc, oo⟩ := by
  unfold deserializeSettings
  rw [hb, hs, hc, hst, ho]

/-- Deserialization fails whenever a required field is absent from the
tree (`somebool`, `somestring`, `somesecret`, `somestruct`, or `someint`
inside a `somestruct` table). -/
theorem deserialize_error_of_missing {t : Table}
    (h : t.lookup "somebool" = none ∨ t.lookup "somestring" = none ∨
         t.lookup "somesecret" = none ∨ t.lookup "somestruct" = none ∨
         ∃ t2, t.lookup "somestruct" = some (.vTable t2) ∧ t2.lookup "someint" = none) :
    ∃ e, deserializeSettings t = .error e := by
  unfold deserializeSettings
  rcases hb : fieldBool t with e | b
  · exact ⟨e, rfl⟩
  rcases hs : fieldString t with e | s
  · exact ⟨e, rfl⟩
  rcases hc : fieldSecret t with e | sec
  · exact ⟨e, rfl⟩
  rcases hst : fieldStruct t with e | stc
  · exact ⟨e, rfl⟩
  exfalso
  rcases h with h | h | h | h | ⟨t2, h1, h2⟩
  · unfold fieldBool at hb; rw [h] at hb; simp at hb
  · unfold fieldString at hs; rw [h] at hs; simp at hs
  · unfold fieldSecret at hc; rw [h] at hc; simp at hc
  · unfold fieldStruct at hst; rw [h] at hst; simp at hst
  · unfold fieldStruct at hst; rw [h1] at hst
    simp [deserializeSomeStruct, h2] at hst

/-- A prefix strip succeeds exactly on lists that extend the pattern. -/
theorem stripPat_eq_append : ∀ (pat l r : List Char),
    stripPat pat l = some r ↔ l = pat ++ r
  | [], l, r => by simp [stripPat]
  | _ :: _, [], _ => by simp [stripPat]
  | p :: ps, c :: cs, r => by
      by_cases h : c = p
      · subst h; simp [stripPat, stripPat_eq_append ps cs r]
      · simp [stripPat, h]

/-! ## The claims -/

/-- Claim C1: for the four-layer merge with the scenario baseline
(`somebool=false`, `somestring="base"`, `somestruct.someint=1`, no
`someoptionalstring`), a runtime file setting `somestring="runtime"`, the
environment setting `SOMESTRUCT__SOMEINT=42` and a caller override setting
only `somestring="override"`, `get_configuration` returns `Ok` with
`somebool=false`, `somestring="override"`, `somestruct.someint=42` and
`someoptionalstring=None`: each key resolves to the highest-priority
source that provides it. -/
theorem c1_four_layer_merge_scenario :
    get_configuration baseC1 (some rtC1) envC1 ⟨some "override"⟩ =
      .ok ⟨false, "override", ⟨"base-secret"⟩, ⟨42⟩, none⟩ := rfl

/-- Claim C2 (code bug): the scenario baseline is valid (it deserializes
on its own), yet with the runtime file absent, no environment variables
and no overrides, `get_configuration` fails: the code adds the runtime
file source without `required(false)`, and `config::File::from` marks a
file source required by default, so the missing file aborts the build
instead of being skipped as the specification (and the function comment
in the code) promise. -/
theorem c2_missing_runtime_file_is_error :
    deserializeSettings baseC1 = .ok ⟨false, "base", ⟨"base-secret"⟩, ⟨1⟩, none⟩ ∧
    get_configuration baseC1 none [] ⟨none⟩ = .error "configuration file not found" :=
  ⟨rfl, rfl⟩

/-- Claim C3: an `OptionalSettings` with `somestring` unset contributes no
keys at all (its source table is empty and resolution coincides with the
three lower-priority layers alone); when `somestring` is set, its value
wins over baseline, runtime file and environment. -/
theorem c3_unset_override_contributes_nothing :
    (∀ o : OptionalSettings, o.somestring = none → overrideTable o = .nil) ∧
    (∀ base rt env, get_configuration base rt env ⟨none⟩ = resolveNoOverride base rt env) ∧
    (∀ base rtt env s st,
        get_configuration base (some rtt) env ⟨some s⟩ = .ok st →
        st.somestring = s) := by
  refine ⟨?_, ?_, ?_⟩
  · rintro ⟨os⟩ h
    cases os with
    | none => rfl
    | some s => exact Option.noConfusion h
  · intro base rt env
    cases rt <;> rfl
  · intro base rtt env s st h
    have hf := (deserialize_ok_fields (t := mergedTree base rtt env ⟨some s⟩) h).2.1
    unfold fieldString at hf
    rw [mergedTree_lookup_somestring] at hf
    simp [Value.intoString] at hf
    exact hf.symm

/-- Witness for C3 at a concrete input: the scenario resolution succeeds
and its `somestring` is the override value. -/
theorem c3_witness :
    get_configuration baseC1 (some rtC1) envC1 ⟨some "override"⟩ =
      .ok ⟨false, "override", ⟨"base-secret"⟩, ⟨42⟩, none⟩ ∧
    (⟨false, "override", ⟨"base-secret"⟩, ⟨42⟩, none⟩ : Settings).somestring = "override" :=
  ⟨rfl, c3_unset_override_contributes_nothing.2.2 baseC1 rtC1 envC1 "override"
    ⟨false, "override", ⟨"base-secret"⟩, ⟨42⟩, none⟩ rfl⟩

/-- Claim C4: the numeric field `somestruct.someint` is coerced from a
decimal-string representation (such as the environment value `"42"`) to
the integer type, and a non-numeric string such as `"abc"` makes
`get_configuration` return a deserialization error rather than a
`Settings`. -/
theorem c4_numeric_string_coercion :
    coerceIntField (.vStr "42") = .ok 42 ∧
    (∃ e, coerceIntField (.vStr "abc") = .error e) ∧
    get_configuration baseC1 (some .nil)
        [("CONFIG_PLAYGROUND__SOMESTRUCT__SOMEINT", "42")] ⟨none⟩ =
      .ok ⟨false, "base", ⟨"base-secret"⟩, ⟨42⟩, none⟩ ∧
    (∃ e, get_configuration baseC1 (some .nil)
        [("CONFIG_PLAYGROUND__SOMESTRUCT__SOMEINT", "abc")] ⟨none⟩ = .error e) :=
  ⟨rfl, ⟨"invalid digit found in string", rfl⟩, rfl, ⟨"invalid digit found in string", rfl⟩⟩

/-- Claim C5: when any required field (`somebool`, `somestring`,
`somesecret`, or `somestruct.someint`) is absent from the fully merged
tree, `get_configuration` returns an error and never a partially
populated `Settings`. -/
theorem c5_missing_required_field_errors (base rtt : Table)
    (env : List (String × String)) (o : OptionalSettings)
    (h : (mergedTree base rtt env o).lookup "somebool" = none ∨
         (mergedTree base rtt env o).lookup "somestring" = none ∨
         (mergedTree base rtt env o).lookup "somesecret" = none ∨
         (mergedTree base rtt env o).lookup "somestruct" = none ∨
         ∃ t2, (mergedTree base rtt env o).lookup "somestruct" = some (.vTable t2) ∧
           t2.lookup "someint" = none) :
    ∃ e, get_configuration base (some rtt) env o = .error e :=
  deserialize_error_of_missing h

/-- Witness for C5 at a concrete input: a baseline without `somebool`
makes resolution fail. -/
theorem c5_witness :
    (mergedTree baseNoBool .nil [] ⟨none⟩).lookup "somebool" = none ∧
    ∃ e, get_configuration baseNoBool (some .nil) [] ⟨none⟩ = .error e :=
  ⟨rfl, c5_missing_required_field_errors baseNoBool .nil [] ⟨none⟩ (Or.inl rfl)⟩

/-- Claim C6: resolution is deterministic: two runs of
`get_configuration` on identical source contents (baseline, runtime file
state, environment, overrides) produce identical results. -/
theorem c6_deterministic (base1 base2 : Table) (rt1 rt2 : Option Table)
    (env1 env2 : List (String × String)) (o1 o2 : OptionalSettings)
    (hb : base1 = base2) (hr : rt1 = rt2) (he : env1 = env2) (ho : o1 = o2) :
    get_configuration base1 rt1 env1 o1 = get_configuration base2 rt2 env2 o2 := by
  subst hb; subst hr; subst he; subst ho; rfl

/-- Witness for C6 at a concrete input. -/
theorem c6_witness :
    get_configuration baseC1 (some rtC1) envC1 ⟨none⟩ =
      get_configuration baseC1 (some rtC1) envC1 ⟨none⟩ :=
  c6_deterministic baseC1 baseC1 (some rtC1) (some rtC1) envC1 envC1 ⟨none⟩ ⟨none⟩
    rfl rfl rfl rfl

/-- Claim C7: an environment variable enters the merge only when its name
(case-insensitively) starts with the `CONFIG_PLAYGROUND` prefix pattern;
the remainder is split on the `__` separator into a nested key path, so
`CONFIG_PLAYGROUND__SOMESTRUCT__SOMEINT` maps to `somestruct.someint`. -/
theorem c7_env_prefix_mapping :
    (∀ name path, envKeyPath name = some path →
        ∃ rest, name.data.map lowerChar = envPrefixPattern ++ rest ∧
          path = splitDots [] (replaceSep rest)) ∧
    (∀ (cache : Table) name v env, envKeyPath name = none →
        cache.collectEnv ((name, v) :: env) = cache.collectEnv env) ∧
    envKeyPath "CONFIG_PLAYGROUND__SOMESTRUCT__SOMEINT" = some ["somestruct", "someint"] ∧
    Table.nil.collectEnv [("CONFIG_PLAYGROUND__SOMESTRUCT__SOMEINT", "42")] =
      .cons "somestruct" (.vTable (.cons "someint" (.vStr "42") .nil)) .nil := by
  refine ⟨?_, ?_, rfl, rfl⟩
  · intro name path h
    unfold envKeyPath at h
    rcases hs : stripPat envPrefixPattern (name.data.map lowerChar) with _ | rest <;>
      rw [hs] at h
    · simp at h
    · simp only [Option.some.injEq] at h
      exact ⟨rest, (stripPat_eq_append _ _ _).mp hs, h.symm⟩
  · intro cache name v env h
    simp [Table.collectEnv, h]

/-- Witness for C7 at a concrete input: a variable without the prefix is
skipped, one with the prefix lands at the nested key. -/
theorem c7_witness :
    Table.nil.collectEnv [("HOME", "x"), ("CONFIG_PLAYGROUND__SOMESTRUCT__SOMEINT", "42")] =
      .cons "somestruct" (.vTable (.cons "someint" (.vStr "42") .nil)) .nil :=
  (c7_env_prefix_mapping.2.1 .nil "HOME" "x"
      [("CONFIG_PLAYGROUND__SOMESTRUCT__SOMEINT", "42")] rfl).trans
    c7_env_prefix_mapping.2.2.2

/-- Claim C8: the debug/log display of the resolved settings is redacted:
it does not depend on the secret value at all, `Secret`s debug form is a
fixed placeholder, and only the explicit accessor reveals the raw
value. -/
theorem c8_secret_redaction :
    (∀ (st : Settings) (v w : Secret),
        Settings.debugFmt { st with somesecret := v } =
          Settings.debugFmt { st with somesecret := w }) ∧
    (∀ (st : Settings) (v w : Secret),
        (mainOutput { st with somesecret := v }).take 1 =
          (mainOutput { st with somesecret := w }).take 1) ∧
    (∀ v : Secret, Secret.debugFmt v = "Secret([REDACTED alloc::string::String])") ∧
    (∀ v : Secret, v.exposeSecret = v.secretValue) :=
  ⟨fun _ _ _ => rfl, fun _ _ _ => rfl, fun _ => rfl, fun _ => rfl⟩

/-- Claim C9: the caller-override layer can only affect `somestring`: at
every other key the merged tree is independent of the override, and in
any two successful resolutions differing only in the override the fields
`somebool`, `somesecret`, `somestruct` and `someoptionalstring`
coincide. -/
theorem c9_override_only_somestring :
    (∀ (base rtt : Table) (env : List (String × String)) (o : OptionalSettings)
        (key : String), key ≠ "somestring" →
        (mergedTree base rtt env o).lookup key =
          (mergedTree base rtt env ⟨none⟩).lookup key) ∧
    (∀ (base : Table) (rt : Option Table) (env : List (String × String))
        (o : OptionalSettings) (st st0 : Settings),
        get_configuration base rt env o = .ok st →
        get_configuration base rt env ⟨none⟩ = .ok st0 →
        st.somebool = st0.somebool ∧ st.somesecret = st0.somesecret ∧
        st.somestruct = st0.somestruct ∧
        st.someoptionalstring = st0.someoptionalstring) := by
  constructor
  · exact mergedTree_lookup_ne
  · intro base rt env o st st0 h h0
    cases rt with
    | none => simp [get_configuration, buildConfig] at h
    | some rtt =>
      obtain ⟨hb, _, hc, hst, ho⟩ :=
        deserialize_ok_fields (t := mergedTree base rtt env o) h
      obtain ⟨hb0, _, hc0, hst0, ho0⟩ :=
        deserialize_ok_fields (t := mergedTree base rtt env ⟨none⟩) h0
      have eb : fieldBool (mergedTree base rtt env o) =
          fieldBool (mergedTree base rtt env ⟨none⟩) := by
        unfold fieldBool
        rw [mergedTree_lookup_ne base rtt env o "somebool" (by decide)]
      have ec : fieldSecret (mergedTree base rtt env o) =
          fieldSecret (mergedTree base rtt env ⟨none⟩) := by
        unfold fieldSecret
        rw [mergedTree_lookup_ne base rtt env o "somesecret" (by decide)]
      have es : fieldStruct (mergedTree base rtt env o) =
          fieldStruct (mergedTree base rtt env ⟨none⟩) := by
        unfold fieldStruct
        rw [mergedTree_lookup_ne base rtt env o "somestruct" (by decide)]
      have eo : fieldOptional (mergedTree base rtt env o) =
          fieldOptional (mergedTree base rtt env ⟨none⟩) := by
        unfold fieldOptional
        rw [mergedTree_lookup_ne base rtt env o "someoptionalstring" (by decide)]
      exact ⟨Except.ok.inj (hb.symm.trans (eb.trans hb0)),
        Except.ok.inj (hc.symm.trans (ec.trans hc0)),
        Except.ok.inj (hst.symm.trans (es.trans hst0)),
        Except.ok.inj (ho.symm.trans (eo.trans ho0))⟩

/-- Witness for C9 at a concrete input: with and without the override,
the non-`somestring` fields agree. -/
theorem c9_witness :
    get_configuration baseC1 (some rtC1) [] ⟨some "override"⟩ =
      .ok ⟨false, "override", ⟨"base-secret"⟩, ⟨1⟩, none⟩ ∧
    get_configuration baseC1 (some rtC1) [] ⟨none⟩ =
      .ok ⟨false, "runtime", ⟨"base-secret"⟩, ⟨1⟩, none⟩ ∧
    (⟨false, "override", ⟨"base-secret"⟩, ⟨1⟩, none⟩ : Settings).someoptionalstring =
      (⟨false, "runtime", ⟨"base-secret"⟩, ⟨1⟩, none⟩ : Settings).someoptionalstring :=
  ⟨rfl, rfl,
    (c9_override_only_somestring.2 baseC1 (some rtC1) [] ⟨some "override"⟩
      ⟨false, "override", ⟨"base-secret"⟩, ⟨1⟩, none⟩
      ⟨false, "runtime", ⟨"base-secret"⟩, ⟨1⟩, none⟩ rfl rfl).2.2.2⟩

/-- Claim C10: when no source provides `someoptionalstring`, resolution is
unaffected by its absence: a successful resolution has
`someoptionalstring = None`, and success is equivalent to the four
required fields deserializing (absence of the optional field is never
itself an error). -/
theorem c10_optional_absent (base rtt : Table) (env : List (String × String))
    (o : OptionalSettings)
    (habs : (mergedTree base rtt env o).lookup "someoptionalstring" = none) :
    (∀ st, get_configuration base (some rtt) env o = .ok st →
        st.someoptionalstring = none) ∧
    ((∃ st, get_configuration base (some rtt) env o = .ok st) ↔
      (∃ b, fieldBool (mergedTree base rtt env o) = .ok b) ∧
      (∃ s, fieldString (mergedTree base rtt env o) = .ok s) ∧
      (∃ sec, fieldSecret (mergedTree base rtt env o) = .ok sec) ∧
      (∃ stc, fieldStruct (mergedTree base rtt env o) = .ok stc)) := by
  have hopt : fieldOptional (mergedTree base rtt env o) = .ok none := by
    unfold fieldOptional; rw [habs]
  constructor
  · intro st h
    have h5 := (deserialize_ok_fields (t := mergedTree base rtt env o) h).2.2.2.2
    rw [hopt] at h5
    exact (Except.ok.inj h5).symm
  · constructor
    · rintro ⟨st, h⟩
      obtain ⟨hb, hs, hc, hst, _⟩ :=
        deserialize_ok_fields (t := mergedTree base rtt env o) h
      exact ⟨⟨_, hb⟩, ⟨_, hs⟩, ⟨_, hc⟩, ⟨_, hst⟩⟩
    · rintro ⟨⟨b, hb⟩, ⟨s, hs⟩, ⟨sec, hc⟩, ⟨stc, hst⟩⟩
      exact ⟨⟨b, s, sec, stc, none⟩, deserialize_of_fields hb hs hc hst hopt⟩

/-- Witness for C10 at a concrete input: the scenario baseline provides no
`someoptionalstring`, resolution succeeds, and the field is `None`. -/
theorem c10_witness :
    (mergedTree baseC1 .nil [] ⟨none⟩).lookup "someoptionalstring" = none ∧
    get_configuration baseC1 (some .nil) [] ⟨none⟩ =
      .ok ⟨false, "base", ⟨"base-secret"⟩, ⟨1⟩, none⟩ ∧
    (⟨false, "base", ⟨"base-secret"⟩, ⟨1⟩, none⟩ : Settings).someoptionalstring = none :=
  ⟨rfl, rfl,
    (c10_optional_absent baseC1 .nil [] ⟨none⟩ rfl).1
      ⟨false, "base", ⟨"base-secret"⟩, ⟨1⟩, none⟩ rfl⟩

end ConfigPlayground
